import Mathlib

/-!
Verification development for the `simple-supervisor` program
(`src/simple-supervisor.c`, configuration in `src/config.h`).

The C program is shallowly embedded: every definition below is a direct
translation of a function of the source file (names are kept).  Bytes are
`Nat` values `< 256`; the C `char` of the reference platform is signed
(amd64 ABIs, the platform the source targets), so comparisons such as
`*inp < ' '` are modelled on the signed value; the signedness is kept as an
explicit parameter `signed` so that both choices of the implementation-defined
C `char` can be analysed.  Side effects (printf/dprintf, kill, alarm, wait,
spawning, closing descriptors) are modelled as an explicit event trace, and
process exit as an `Option Nat` exit code.
-/

set_option maxRecDepth 100000

namespace SimpleSupervisor

/-- `MAX_LINE_LENGTH` from config.h. -/
def MAX_LINE_LENGTH : Nat := 120

/-- `SHUTDOWN_TIMEOUT` from config.h (seconds). -/
def SHUTDOWN_TIMEOUT : Nat := 10

/-- `PHASE_CHECK` from the source. -/
def PHASE_CHECK : Nat := 0

/-- `PHASE_NORMAL` from the source. -/
def PHASE_NORMAL : Nat := 1

/-- Signal numbers (values as on the reference platform; only distinctness
matters to the model). -/
def SIGINT : Nat := 2
def SIGKILL : Nat := 9
def SIGUSR1 : Nat := 10
def SIGUSR2 : Nat := 12
def SIGALRM : Nat := 14
def SIGTERM : Nat := 15
def SIGCHLD : Nat := 17

/-- The value of a byte read into a C `char`: two's-complement when `char`
is signed, the byte itself when it is unsigned. -/
def charVal (signed : Bool) (b : Nat) : Int :=
  if signed = true ∧ 128 ≤ b then (b : Int) - 256 else (b : Int)

/-- On the reference platform (amd64) `char` is signed. -/
def char_is_signed : Bool := true

/-- The byte-processing loop of `pump_buffer` (simple-supervisor.c lines
340-354): CR is discarded, LF flushes the accumulated payload, a byte that
compares below `' '` as a C `char` or equals `127` is appended as a single
space, any other byte is appended verbatim.  Returns the final buffer
contents and the list of flushed payloads, in flush order. -/
def processBytes (signed : Bool) : List Nat → List Nat → List Nat × List (List Nat)
  | buf, [] => (buf, [])
  | buf, b :: rest =>
    if b = 13 then processBytes signed buf rest
    else if b = 10 then
      let pr := processBytes signed [] rest
      (pr.1, buf :: pr.2)
    else if charVal signed b < 32 ∨ b = 127 then
      processBytes signed (buf ++ [32]) rest
    else
      processBytes signed (buf ++ [b]) rest

/-- Result of one `pump_buffer` call: new buffer contents, bytes still
pending (unread) in the pipe, payloads flushed by this call, and the C
return value (−1 read error, 0 the EOF path, 1 more data). -/
structure PumpBufOut where
  buf : List Nat
  pending : List Nat
  records : List (List Nat)
  retval : Int
deriving DecidableEq, Repr

/-- `pump_buffer` (simple-supervisor.c lines 323-361).  `buf` is the
accumulated line (its length is the C `buffer->position`), `pending` the
bytes currently available for reading on the pipe, `rerr` injects a failing
`read`.  The `read` call asks for `MAX_LINE_LENGTH - position` bytes, so a
full buffer issues a zero-count read, which returns zero bytes and is taken
by the code as end of file: the buffer is flushed and 0 is returned.  The
trailing `if(buffer_space_left == 0)` flush of the source is translated
faithfully (it is reachable only when the read returned bytes, which a
zero-count read never does). -/
def pump_buffer (signed : Bool) (rerr : Bool) (buf pending : List Nat) : PumpBufOut :=
  let space := MAX_LINE_LENGTH - buf.length
  if rerr then ⟨buf, pending, [], -1⟩
  else
    let chunk := pending.take space
    if chunk.length = 0 then
      ⟨[], pending, [buf], 0⟩
    else
      let pr := processBytes signed buf chunk
      let pending' := pending.drop chunk.length
      if space = 0 then
        ⟨[], pending', pr.2 ++ [pr.1], 1⟩
      else
        ⟨pr.1, pending', pr.2, 1⟩

/-- `struct child_configuration` (simple-supervisor.c lines 35-42); the
`command` array is irrelevant to the supervisor core and omitted. -/
structure ChildConfig where
  name : String
  receives_sigusr1 : Bool
  receives_sigusr2 : Bool
  termination_signal : Nat
  is_startup_check : Bool
deriving DecidableEq, Repr

/-- `struct child_state` (lines 91-99), together with the state of the two
pipes feeding its line buffers: `outBuf`/`errBuf` are the accumulated bytes
of `out_buffer`/`err_buffer`, `stdoutOpen`/`stderrOpen` model
`stdout != -1`/`stderr != -1`, `outPending`/`errPending` are the bytes the
child has written but the supervisor has not read yet, and the
`WriterClosed` flags say the child-side write end is closed (genuine EOF
once the pending bytes are drained). -/
structure ChildState where
  config : ChildConfig
  pid : Int
  running : Bool
  outBuf : List Nat
  errBuf : List Nat
  stdoutOpen : Bool
  stderrOpen : Bool
  outPending : List Nat
  errPending : List Nat
  outWriterClosed : Bool
  errWriterClosed : Bool
deriving DecidableEq, Repr

/-- The globals of the program (lines 101-109): the teardown flag, the four
flags set by `signal_handler`, and the `children` array. -/
structure SupState where
  teardown_in_progress : Bool
  termination_signal_received : Bool
  sigusr1_received : Bool
  sigusr2_received : Bool
  sigalrm_received : Bool
  children : List ChildState
deriving DecidableEq, Repr

/-- `FLAVOUR_SIGNAL` / `FLAVOUR_STDOUT` / `FLAVOUR_STDERR` (lines 446-448). -/
def FLAVOUR_SIGNAL : Int := -1
def FLAVOUR_STDOUT : Int := 1
def FLAVOUR_STDERR : Int := 2

/-- Observable side effects of the supervisor, in program order: log lines
(`printf`/`warn`), clearing a pending signal flag, `kill`, `alarm`, one
framed record written by `flush_buffer`, a `read` drain of a ready
descriptor, closing a stream, spawning a child, and reaping one
(`isCheck` is the `is_startup_check` field of the reaped child's config). -/
inductive Event where
  | log (msg : String)
  | warn (msg : String)
  | clearFlag (flag : String)
  | kill (pid : Int) (signal : Nat)
  | armAlarm (secs : Nat)
  | emitRecord (fd : Nat) (name : String) (payload : List Nat)
  | drain (name : String) (flavour : Int)
  | closeStream (name : String) (flavour : Int)
  | spawn (name : String) (isCheck : Bool)
  | reaped (name : String) (status : Nat) (isCheck : Bool)
deriving DecidableEq, Repr

/-- A `for` loop over the children table sending signal `sig c` to every
child selected by `p` (the loops of `teardown`, `brutal_teardown` and the
two forwarding blocks of `check_signals` all have this shape). -/
def kills (sig : ChildState → Nat) (p : ChildState → Bool) (l : List ChildState) : List Event :=
  l.filterMap fun c => if p c then some (Event.kill c.pid (sig c)) else none

/-- `teardown()` (lines 259-277): return immediately when already in
progress; otherwise log, set the flag, send every running child its
configured termination signal, and arm the shutdown alarm. -/
def teardown (s : SupState) : SupState × List Event :=
  if s.teardown_in_progress then (s, [])
  else
    ({ s with teardown_in_progress := true },
      Event.log "Asking all processes to exit."
        :: kills (fun c => c.config.termination_signal) (fun c => c.running) s.children
        ++ [Event.armAlarm SHUTDOWN_TIMEOUT])

/-- The kills performed by `brutal_teardown()` (lines 279-288): SIGKILL to
every running child.  The function then exits the process with status 1. -/
def brutal_teardown (s : SupState) : List Event :=
  kills (fun _ => SIGKILL) (fun c => c.running) s.children

/-- `check_signals()` (lines 363-414).  Each pending flag is cleared and
then acted on, in source order: termination (soft teardown, or hard when
one is already in progress), SIGUSR1/SIGUSR2 forwarding to opted-in running
children, then SIGALRM (hard teardown).  The optional `Nat` is the exit
status when `brutal_teardown` ended the process. -/
def check_signals (s : SupState) : SupState × List Event × Option Nat :=
  let step1 :
      SupState × List Event × Option Nat :=
    if s.termination_signal_received then
      let s' := { s with termination_signal_received := false }
      let e0 := [Event.clearFlag "termination", Event.log "Received request to terminate."]
      if s'.teardown_in_progress then
        (s', e0 ++ [Event.log "Shutdown already in progress, so performing hard shutdown."]
              ++ brutal_teardown s', some 1)
      else
        let t := teardown s'
        (t.1, e0 ++ [Event.log "Performing soft shutdown."] ++ t.2, none)
    else (s, [], none)
  match step1 with
  | (s1, e1, some c) => (s1, e1, some c)
  | (s1, e1, none) =>
    let step2 : SupState × List Event :=
      if s1.sigusr1_received then
        ({ s1 with sigusr1_received := false },
          Event.clearFlag "usr1" :: Event.log "Received SIGUSR1."
            :: kills (fun _ => SIGUSR1)
                 (fun c => c.running && c.config.receives_sigusr1) s1.children)
      else (s1, [])
    let s2 := step2.1
    let step3 : SupState × List Event :=
      if s2.sigusr2_received then
        ({ s2 with sigusr2_received := false },
          Event.clearFlag "usr2" :: Event.log "Received SIGUSR2."
            :: kills (fun _ => SIGUSR2)
                 (fun c => c.running && c.config.receives_sigusr2) s2.children)
      else (s2, [])
    let s3 := step3.1
    if s3.sigalrm_received then
      let s4 := { s3 with sigalrm_received := false }
      (s4, e1 ++ step2.2 ++ step3.2
            ++ [Event.clearFlag "alarm",
                Event.log "Shutdown timeout has arrived, performing hard shutdown."]
            ++ brutal_teardown s4, some 1)
    else (s3, e1 ++ step2.2 ++ step3.2, none)

/-- `reap()` (lines 290-315): find the first child with this pid that is
still running, mark it exited, close its descriptors, and log.  The
distinction between the success/failure/plain-exit log lines is carried by
the `reaped` event's `status` and `isCheck` fields. -/
def reap (pid : Int) (status : Nat) : List ChildState → List ChildState × List Event
  | [] => ([], [])
  | c :: rest =>
    if c.pid = pid ∧ c.running then
      ({ c with pid := -1, running := false, stdoutOpen := false, stderrOpen := false } :: rest,
        [Event.reaped c.config.name status c.config.is_startup_check])
    else
      let r := reap pid status rest
      (c :: r.1, r.2)

/-- `check_for_terminations()` (lines 416-431): drain `waitpid` results
(the `reaps` list, pid with `WEXITSTATUS`), reap each, and call `teardown`
whenever the status is nonzero or the phase is not the check phase. -/
def check_for_terminations (phase : Nat) (reaps : List (Int × Nat)) (s : SupState) :
    SupState × List Event :=
  match reaps with
  | [] => (s, [])
  | (pid, st) :: rest =>
    let r := reap pid st s.children
    let s1 := { s with children := r.1 }
    let t := if st ≠ 0 ∨ phase ≠ PHASE_CHECK then teardown s1 else (s1, [])
    let k := check_for_terminations phase rest t.1
    (k.1, r.2 ++ t.2 ++ k.2)

/-- `check_pending()` (lines 433-444): is any child still running? -/
def check_pending (s : SupState) : Bool :=
  s.children.any (fun c => c.running)

/-- A pipe read end is ready for `POLLIN` when data is pending, or at end of
file once the write side is closed (pipe semantics of the reference
platform). -/
def streamReady (pending : List Nat) (writerClosed : Bool) : Bool :=
  !pending.isEmpty || writerClosed

/-- The body of `handle_io` (lines 494-522) for one child stream entry of
the poll set: when the entry is present (`isOpen`, the fd is not −1) and
polled ready, call `pump_buffer`; a return value below 1 closes the
descriptor.  Returns the updated open flag, buffer, pending bytes, and the
events (the drain, the emitted records, and the close if any). -/
def handle_io_stream (signed : Bool) (name : String) (fd : Nat) (flavour : Int)
    (isOpen : Bool) (buf pending : List Nat) (writerClosed : Bool) :
    Bool × List Nat × List Nat × List Event :=
  if isOpen && streamReady pending writerClosed then
    let o := pump_buffer signed false buf pending
    let evs := Event.drain name flavour
      :: o.records.map (fun r => Event.emitRecord fd name r)
    if o.retval < 1 then
      (false, o.buf, o.pending, evs ++ [Event.closeStream name flavour])
    else
      (true, o.buf, o.pending, evs)
  else (isOpen, buf, pending, [])

/-- `handle_io` restricted to one child: its poll entries are its stdout
(written to the supervisor's fd 1) and then its stderr (fd 2), present only
while the child is running (`setup_poll`, lines 457-492). -/
def handle_io_child (signed : Bool) (c : ChildState) : ChildState × List Event :=
  if c.running then
    let o := handle_io_stream signed c.config.name 1 FLAVOUR_STDOUT
      c.stdoutOpen c.outBuf c.outPending c.outWriterClosed
    let e := handle_io_stream signed c.config.name 2 FLAVOUR_STDERR
      c.stderrOpen c.errBuf c.errPending c.errWriterClosed
    ({ c with stdoutOpen := o.1, outBuf := o.2.1, outPending := o.2.2.1,
              stderrOpen := e.1, errBuf := e.2.1, errPending := e.2.2.1 },
      o.2.2.2 ++ e.2.2.2)
  else (c, [])

/-- `handle_io` (lines 494-522) over the whole poll set built by
`setup_poll`: the self-pipe entry first (drained and discarded whenever a
signal made it readable), then each running child's streams in table
order. -/
def handle_io (signed : Bool) (s : SupState) : SupState × List Event :=
  let sigEvs :=
    if s.termination_signal_received || s.sigusr1_received
        || s.sigusr2_received || s.sigalrm_received then
      [Event.drain "SIGNAL" FLAVOUR_SIGNAL]
    else []
  let results := s.children.map (handle_io_child signed)
  ({ s with children := results.map Prod.fst },
    sigEvs ++ (results.map Prod.snd).flatten)

/-- The signal deliveries and `waitpid` results the environment supplies to
one iteration of the event loop. -/
structure EnvIter where
  term : Bool
  usr1 : Bool
  usr2 : Bool
  alrm : Bool
  reaps : List (Int × Nat)
deriving DecidableEq, Repr

/-- The effect of `signal_handler` (lines 111-124) for the signals the
environment delivers before the iteration: each delivery sets its flag. -/
def deliver (env : EnvIter) (s : SupState) : SupState :=
  { s with
    termination_signal_received := s.termination_signal_received || env.term,
    sigusr1_received := s.sigusr1_received || env.usr1,
    sigusr2_received := s.sigusr2_received || env.usr2,
    sigalrm_received := s.sigalrm_received || env.alrm }

/-- `pump()` (lines 524-543): one iteration of the event loop — poll, drain
ready descriptors (`handle_io`), process the signal flags
(`check_signals`), reap (`check_for_terminations`).  The optional `Nat` is
the process exit status when `check_signals` ended the process; otherwise
the caller continues while `check_pending` holds of the resulting state. -/
def pump (signed : Bool) (phase : Nat) (env : EnvIter) (s : SupState) :
    SupState × List Event × Option Nat :=
  let s0 := deliver env s
  let io := handle_io signed s0
  let cs := check_signals io.1
  match cs with
  | (s2, e2, some c) => (s2, io.2 ++ e2, some c)
  | (s2, e2, none) =>
    let ct := check_for_terminations phase env.reaps s2
    (ct.1, io.2 ++ e2 ++ ct.2, none)

/-- Outcome of a `while(pump(phase)) {}` loop: the process exited during an
iteration, the loop finished because no child is running, or the modelled
environment ran out of iterations while children remain. -/
inductive LoopOut where
  | exited (code : Nat) (events : List Event)
  | finished (s : SupState) (events : List Event)
  | running (s : SupState) (events : List Event)
deriving DecidableEq, Repr

/-- The `while(pump(phase)) {}` loops of `startup_check` and `main`
(lines 555 and 599), driven by a finite list of environment iterations. -/
def pumpLoop (signed : Bool) (phase : Nat) : List EnvIter → SupState → LoopOut
  | [], s => .running s []
  | env :: rest, s =>
    match pump signed phase env s with
    | (_, evs, some c) => .exited c evs
    | (s', evs, none) =>
      if check_pending s' then
        match pumpLoop signed phase rest s' with
        | .exited c evs2 => .exited c (evs ++ evs2)
        | .finished s2 evs2 => .finished s2 (evs ++ evs2)
        | .running s2 evs2 => .running s2 (evs ++ evs2)
      else .finished s' evs

/-- A failure the environment injects into one iteration of the
`setup_children` loop: one of the three `pipe()` calls fails, or `fork()`
fails. -/
inductive SpawnFail where
  | pipeErr
  | pipeIn
  | pipeOut
  | forkFail
deriving DecidableEq, Repr

/-- The two `continue` filters of the `setup_children` loop (lines
154-160). -/
def phase_skips (phase : Nat) (cfg : ChildConfig) : Bool :=
  (if phase = PHASE_CHECK then !cfg.is_startup_check else false)
    || (if phase = PHASE_NORMAL then cfg.is_startup_check else false)

/-- The loop of `setup_children` (lines 148-203) over the children from
index `i`, with `acc` the value of `rv` so far.  A `pipe()` failure warns
and breaks with `rv` unchanged; a `fork()` failure warns, sets `rv = -1`
and breaks; a successful spawn marks the child running (model pid
`100 + i`) and increments `rv`. -/
def setup_children_go (phase : Nat) (oracle : List (Option SpawnFail)) :
    Nat → Int → List ChildState → List ChildState × List Event × Int
  | _, acc, [] => ([], [], acc)
  | i, acc, c :: rest =>
    if phase_skips phase c.config then
      let r := setup_children_go phase oracle (i + 1) acc rest
      (c :: r.1, r.2.1, r.2.2)
    else
      match oracle.getD i none with
      | some .pipeErr => (c :: rest, [Event.warn "pipe()"], acc)
      | some .pipeIn => (c :: rest, [Event.warn "pipe()"], acc)
      | some .pipeOut => (c :: rest, [Event.warn "pipe()"], acc)
      | some .forkFail => (c :: rest, [Event.warn "fork()"], -1)
      | none =>
        let c' := { c with
          pid := 100 + (i : Int), running := true,
          stdoutOpen := true, stderrOpen := true,
          outBuf := [], errBuf := [], outPending := [], errPending := [],
          outWriterClosed := false, errWriterClosed := false }
        let r := setup_children_go phase oracle (i + 1) (acc + 1) rest
        (c' :: r.1, Event.spawn c.config.name c.config.is_startup_check :: r.2.1, r.2.2)

/-- `setup_children()` (lines 145-206): run the loop over the whole table,
returning the updated children, the events, and the C return value. -/
def setup_children (phase : Nat) (oracle : List (Option SpawnFail)) (s : SupState) :
    SupState × List Event × Int :=
  let r := setup_children_go phase oracle 0 0 s.children
  ({ s with children := r.1 }, r.2.1, r.2.2)

/-- Prefix a list of earlier events onto a loop outcome. -/
def prependEvents (pre : List Event) : LoopOut → LoopOut
  | .exited c evs => .exited c (pre ++ evs)
  | .finished s evs => .finished s (pre ++ evs)
  | .running s evs => .running s (pre ++ evs)

/-- The lines after `startup_check`'s pump loop (557-559): when the loop
finishes with no teardown in progress, log that all checks passed. -/
def sc_post : LoopOut → LoopOut
  | .finished s' evs =>
    .finished s' (evs ++ if s'.teardown_in_progress then []
                         else [Event.log "All startup checks have passed."])
  | o => o

/-- `startup_check()` (lines 545-560): spawn the check-phase children; on a
−1 result log and start a soft teardown (the loop still runs); on 0 return
immediately; then iterate `pump(PHASE_CHECK)` and apply `sc_post`. -/
def startup_check (signed : Bool) (oracle : List (Option SpawnFail))
    (envs : List EnvIter) (s : SupState) : LoopOut :=
  let r := setup_children PHASE_CHECK oracle s
  if r.2.2 = -1 then
    let t := teardown r.1
    prependEvents (r.2.1 ++ [Event.log "Not all check commands could be spawned."] ++ t.2)
      (sc_post (pumpLoop signed PHASE_CHECK envs t.1))
  else if r.2.2 = 0 then .finished r.1 r.2.1
  else prependEvents r.2.1 (sc_post (pumpLoop signed PHASE_CHECK envs r.1))

/-- The whole-run input: `argc`, the spawn-failure oracles of the two
`setup_children` calls, and the environment iterations of the two pump
loops. -/
structure RunInput where
  argc : Nat
  checkOracle : List (Option SpawnFail)
  checkEnvs : List EnvIter
  normalOracle : List (Option SpawnFail)
  normalEnvs : List EnvIter
deriving Repr

/-- Outcome of `main`: the process exited with a status, or the modelled
environment ended while the loop was still running. -/
inductive MainOut where
  | exited (code : Nat) (events : List Event)
  | running (events : List Event)
deriving DecidableEq, Repr

/-- The configuration table of config.h: SLEEPER is a normal-phase child,
CHECK and CHECK2 are startup checks; every `termination_signal` is
SIGTERM and no child opts into SIGUSR1/SIGUSR2 forwarding. -/
def child_configuration : List ChildConfig :=
  [⟨"SLEEPER", false, false, SIGTERM, false⟩,
   ⟨"CHECK", false, false, SIGTERM, true⟩,
   ⟨"CHECK2", false, false, SIGTERM, true⟩]

/-- The zero-initialised `children` array before any spawn. -/
def initialChildren : List ChildState :=
  child_configuration.map fun cfg =>
    { config := cfg, pid := 0, running := false, outBuf := [], errBuf := [],
      stdoutOpen := false, stderrOpen := false, outPending := [], errPending := [],
      outWriterClosed := false, errWriterClosed := false }

/-- The global state at program start. -/
def initialState : SupState :=
  ⟨false, false, false, false, false, initialChildren⟩

/-- `main()` (lines 562-604): reject any command-line argument with status
1; run `startup_check`; if a teardown is in progress afterwards, log and
exit 1; spawn the normal-phase children (logging and starting a soft
teardown when that returns −1, otherwise logging success — note the source
logs success for any non-−1 result); run the normal pump loop; exit 1. -/
def main (signed : Bool) (inp : RunInput) : MainOut :=
  if inp.argc > 1 then .exited 1 [Event.warn "no command line arguments accepted"]
  else
    match startup_check signed inp.checkOracle inp.checkEnvs initialState with
    | .exited c evs => .exited c evs
    | .running _ evs => .running evs
    | .finished s evs =>
      if s.teardown_in_progress then
        .exited 1 (evs ++ [Event.log "Startup check failed, shutting down."])
      else
        let r := setup_children PHASE_NORMAL inp.normalOracle s
        let startEvs :=
          if r.2.2 = -1 then
            let t := teardown r.1
            (Event.log "Not all children could be spawned." :: t.2, t.1)
          else ([Event.log "All processes have been spawned."], r.1)
        match pumpLoop signed PHASE_NORMAL inp.normalEnvs startEvs.2 with
        | .exited c evs2 => .exited c (evs ++ r.2.1 ++ startEvs.1 ++ evs2)
        | .running _ evs2 => .running (evs ++ r.2.1 ++ startEvs.1 ++ evs2)
        | .finished _ evs2 =>
          .exited 1 (evs ++ r.2.1 ++ startEvs.1 ++ evs2
            ++ [Event.log "All child processes have exited."])

/-- File-descriptor view of one successful iteration of the
`setup_children` loop (lines 162-202): which fds the spawner put
`FD_CLOEXEC` on for this child (the source contains no `fcntl` call in
`setup_children`, so this list is built empty), the parent-side read ends
recorded for the child, and the pipe fds (beyond 0/1/2) still open in the
child after `execute` ran `dup2` and `execv`. -/
structure SpawnFds where
  name : String
  stdoutReadFd : Nat
  stderrReadFd : Nat
  cloexecSetOn : List Nat
  childFdsAfterExec : List Nat
deriving DecidableEq, Repr

/-- Descriptor bookkeeping of the `setup_children` loop (no injected
failures).  `f` is the next free descriptor number, `parent` the pipe fds
currently open in the parent.  Per iteration: `pipe(p_err)` allocates
`f, f+1`, `pipe(p_in)` allocates `f+2, f+3`, `pipe(p_out)` allocates
`f+4, f+5`; the parent closes `p_in[1]` (`f+3`) at once; the fork gives the
child a copy of the parent's fds, of which it explicitly closes only its
own `children[i].stderr` (`f`) and `children[i].stdout` (`f+4`); `execute`
dup2s the child-side ends onto 0/1/2 and `execv` closes nothing further
because no fd carries `FD_CLOEXEC`; finally the parent closes `p_in[0]`
(`f+2`), `p_out[1]` (`f+5`) and `p_err[1]` (`f+1`), keeping the two read
ends `f` and `f+4`. -/
def setup_children_fds (phase : Nat) : List ChildConfig → Nat → List Nat →
    List SpawnFds × List Nat
  | [], _, parent => ([], parent)
  | cfg :: rest, f, parent =>
    if phase_skips phase cfg then setup_children_fds phase rest f parent
    else
      let parent1 := parent ++ [f, f + 1, f + 2, f + 3, f + 4, f + 5]
      let parent2 := parent1.filter (fun x => x ≠ f + 3)
      let childFds := parent2.filter (fun x => x ≠ f ∧ x ≠ f + 4)
      let record : SpawnFds := ⟨cfg.name, f + 4, f, [], childFds⟩
      let parent3 := parent2.filter (fun x => x ≠ f + 2 ∧ x ≠ f + 5 ∧ x ≠ f + 1)
      let r := setup_children_fds phase rest (f + 6) parent3
      (record :: r.1, r.2)

/-- One call of the state-mutating operations of the event loop and the
teardown controller, as performed by `pump`, `startup_check` and `main`:
the I/O drain, the signal check, the reaping pass, or a direct `teardown()`
call. -/
inductive Op where
  | ioStep
  | signalsStep
  | termsStep (phase : Nat) (reaps : List (Int × Nat))
  | teardownStep
deriving Repr

/-- Apply one operation; the optional `Nat` is the exit status when the
operation ended the process. -/
def applyOp (signed : Bool) : Op → SupState → SupState × List Event × Option Nat
  | .ioStep, s =>
    let r := handle_io signed s
    (r.1, r.2, none)
  | .signalsStep, s => check_signals s
  | .termsStep phase reaps, s =>
    let r := check_for_terminations phase reaps s
    (r.1, r.2, none)
  | .teardownStep, s =>
    let r := teardown s
    (r.1, r.2, none)

/-- Run a sequence of operations, stopping when one exits the process. -/
def runOps (signed : Bool) : List Op → SupState → SupState × List Event × Option Nat
  | [], s => (s, [], none)
  | op :: rest, s =>
    match applyOp signed op s with
    | (s', e, some c) => (s', e, some c)
    | (s', e, none) =>
      let r := runOps signed rest s'
      (r.1, e ++ r.2.1, r.2.2)

/-- Is the event a `kill`? -/
def isKillEvent : Event → Bool
  | .kill _ _ => true
  | _ => false

/-- Is the event an I/O-drain effect (`read`, a flushed record, or closing
a descriptor)?  Exactly the events `handle_io` produces. -/
def isIoEvent : Event → Bool
  | .drain _ _ => true
  | .emitRecord _ _ _ => true
  | .closeStream _ _ => true
  | _ => false

/-- Is the event the reaping of a child? -/
def isReapedEvent : Event → Bool
  | .reaped _ _ _ => true
  | _ => false

/-- Is the event the spawning of a child? -/
def isSpawnEvent : Event → Bool
  | .spawn _ _ => true
  | _ => false

/-- Is the event an `alarm()` call? -/
def isAlarmEvent : Event → Bool
  | .armAlarm _ => true
  | _ => false

/-- Number of `alarm(SHUTDOWN_TIMEOUT)` calls in a trace; `teardown` is the
only function that arms the alarm, so this counts executions of the soft
teardown body. -/
def countAlarms (evs : List Event) : Nat :=
  evs.countP isAlarmEvent

/-- A child record that is not running (zero-initialised, or exited with
descriptors closed). -/
def idleChild (cfg : ChildConfig) (pid : Int) : ChildState :=
  { config := cfg, pid := pid, running := false, outBuf := [], errBuf := [],
    stdoutOpen := false, stderrOpen := false, outPending := [], errPending := [],
    outWriterClosed := false, errWriterClosed := false }

/-- A freshly spawned, running child with empty buffers and the given
pending bytes on its stdout pipe. -/
def runningChild (cfg : ChildConfig) (pid : Int) (outPending : List Nat) : ChildState :=
  { config := cfg, pid := pid, running := true, outBuf := [], errBuf := [],
    stdoutOpen := true, stderrOpen := true, outPending := outPending, errPending := [],
    outWriterClosed := false, errWriterClosed := false }

/-- Environment of a run whose two startup checks get reaped in the first
loop iteration, CHECK (pid 101) exiting with status 1 and CHECK2 (pid 102)
with status 0. -/
def checkFailEnvs : List EnvIter :=
  [⟨false, false, false, false, [(101, 1), (102, 0)]⟩]

/-- The supervisor state at the end of the check phase of the
`checkFailEnvs` run: teardown in progress, both checks reaped, SLEEPER
never spawned. -/
def sAfterFailedCheck : SupState :=
  ⟨true, false, false, false, false,
    [idleChild ⟨"SLEEPER", false, false, SIGTERM, false⟩ 0,
     idleChild ⟨"CHECK", false, false, SIGTERM, true⟩ (-1),
     idleChild ⟨"CHECK2", false, false, SIGTERM, true⟩ (-1)]⟩

/-- The event trace of the check phase of the `checkFailEnvs` run. -/
def evsAfterFailedCheck : List Event :=
  [Event.spawn "CHECK" true, Event.spawn "CHECK2" true,
   Event.reaped "CHECK" 1 true,
   Event.log "Asking all processes to exit.",
   Event.kill 102 SIGTERM, Event.armAlarm SHUTDOWN_TIMEOUT,
   Event.reaped "CHECK2" 0 true]

/-- Is the event a flushed `[name] payload` record? -/
def isRecordEvent : Event → Bool
  | .emitRecord _ _ _ => true
  | _ => false

/-- Environment of a run whose two startup checks both get reaped with
status 0 in the first loop iteration. -/
def okCheckEnvs : List EnvIter :=
  [⟨false, false, false, false, [(101, 0), (102, 0)]⟩]

/-- A supervisor state with one running normal-phase child (pid 100) that
has unread output `"abc"` pending on its stdout pipe, and with a
termination request pending. -/
def sPendingTerm : SupState :=
  ⟨false, true, false, false, false,
    [runningChild ⟨"SLEEPER", false, false, SIGTERM, false⟩ 100 [97, 98, 99]]⟩

/-- An environment iteration delivering nothing. -/
def envNone : EnvIter := ⟨false, false, false, false, []⟩

/-- Is the event one a signal-flag action can produce (a log, a flag
clear, a kill, or arming the alarm)?  Exactly the event kinds
`check_signals` emits. -/
def isSigActEvent : Event → Bool
  | .log _ => true
  | .clearFlag _ => true
  | .kill _ _ => true
  | .armAlarm _ => true
  | _ => false

/-- Every event of the list satisfies the classifier `p`. -/
def EventsAre (p : Event → Bool) (l : List Event) : Prop :=
  ∀ e ∈ l, p e = true

/-- Relation between a state, a resulting state and the events produced on
the way, capturing that the soft-teardown body runs at most once: from a
torn-down state the flag stays set and no further alarm is armed; from a
clean state the alarm is armed exactly once if the run ends torn down and
never otherwise. -/
def AlarmSpec (s s' : SupState) (evs : List Event) : Prop :=
  (s.teardown_in_progress = true →
    s'.teardown_in_progress = true ∧ countAlarms evs = 0) ∧
  (s.teardown_in_progress = false →
    countAlarms evs = (if s'.teardown_in_progress = true then 1 else 0))

/-! Theorems.  The claim theorems are interspersed with shared helper
lemmas about the definitions above. -/

theorem mem_kills {sig : ChildState → Nat} {p : ChildState → Bool} {l : List ChildState}
    {c : ChildState} (hc : c ∈ l) (hp : p c = true) :
    Event.kill c.pid (sig c) ∈ kills sig p l :=
  List.mem_filterMap.mpr ⟨c, hc, by simp [hp]⟩

theorem kills_only_kill {sig : ChildState → Nat} {p : ChildState → Bool} {l : List ChildState}
    {e : Event} (he : e ∈ kills sig p l) : isKillEvent e = true := by
  rcases List.mem_filterMap.mp he with ⟨c, _, hc⟩
  split at hc
  · cases hc
    rfl
  · cases hc

theorem mem_brutal {s : SupState} {c : ChildState} (hc : c ∈ s.children)
    (hr : c.running = true) : Event.kill c.pid SIGKILL ∈ brutal_teardown s :=
  mem_kills hc hr

/-- C3: in `pump_buffer`, once a read fills the buffer to
`MAX_LINE_LENGTH`, the next call issues a zero-count `read`, which returns
zero bytes and is taken as end of file: the full buffer is flushed (one
record of exactly `MAX_LINE_LENGTH` bytes) but the call returns 0, so
`handle_io` closes the stream even though 120 bytes are still pending and
the writer has not closed its end.  A 240-byte line therefore produces one
record, not two, and the source stream does not stay open until a genuine
EOF — the claim's unconditional make-room flush (the source's trailing
`if(buffer_space_left == 0)` block) is unreachable. -/
theorem pump_buffer_full_buffer_spurious_eof :
    (pump_buffer char_is_signed false [] (List.replicate 240 97)).retval = 1 ∧
    (pump_buffer char_is_signed false [] (List.replicate 240 97)).records = [] ∧
    (pump_buffer char_is_signed false [] (List.replicate 240 97)).buf
      = List.replicate 120 97 ∧
    (pump_buffer char_is_signed false [] (List.replicate 240 97)).pending
      = List.replicate 120 97 ∧
    (pump_buffer char_is_signed false (List.replicate 120 97) (List.replicate 120 97)).retval
      = 0 ∧
    (pump_buffer char_is_signed false (List.replicate 120 97) (List.replicate 120 97)).records
      = [List.replicate 120 97] ∧
    (pump_buffer char_is_signed false (List.replicate 120 97) (List.replicate 120 97)).pending
      = List.replicate 120 97 ∧
    (handle_io_stream char_is_signed "SLEEPER" 1 FLAVOUR_STDOUT true (List.replicate 120 97)
      (List.replicate 120 97) false).1 = false := by
  refine ⟨by decide, by decide, by decide, by decide, by decide, by decide, by decide, by decide⟩

/-- C4: a `pipe()` failure during the `setup_children` loop breaks out of
the loop but leaves `rv` at the number of children spawned so far (here 0),
not −1 — only a `fork()` failure sets −1.  Consequently `main`, seeing a
non-negative result, logs "All processes have been spawned." after a pipe
failure instead of starting a teardown. -/
theorem setup_children_pipe_failure_keeps_count :
    (setup_children PHASE_NORMAL [some SpawnFail.pipeErr] initialState).2.2 = 0 ∧
    (setup_children PHASE_NORMAL [some SpawnFail.pipeErr] initialState).2.1
      = [Event.warn "pipe()"] ∧
    (setup_children PHASE_NORMAL [some SpawnFail.forkFail] initialState).2.2 = -1 ∧
    main char_is_signed ⟨1, [], okCheckEnvs, [some SpawnFail.pipeErr], []⟩
      = MainOut.running
          [Event.spawn "CHECK" true, Event.spawn "CHECK2" true,
           Event.reaped "CHECK" 0 true, Event.reaped "CHECK2" 0 true,
           Event.log "All startup checks have passed.",
           Event.warn "pipe()",
           Event.log "All processes have been spawned."] := by
  refine ⟨by decide, by decide, by decide, by decide⟩

/-- C6 counterexample: on the reference platform `char` is signed, so byte
`0x80` compares below `' '` in `pump_buffer`'s sanitiser and is appended as
a space — not verbatim as the claim states. -/
theorem pump_buffer_high_byte_to_space :
    (pump_buffer char_is_signed false [] [128]).buf = [32] ∧
    (pump_buffer char_is_signed false [] [128]).buf ≠ [128] := by
  refine ⟨by decide, by decide⟩

/-- C9 counterexample: `setup_children` contains no `fcntl` call, so no
parent-side read end ever gets `FD_CLOEXEC` (every spawn record's
`cloexecSetOn` is empty), and in the check phase of the reference
configuration the second spawned child (CHECK2) still holds the first
child's (CHECK's) stdout and stderr read ends after `execv`. -/
theorem setup_children_cloexec_missing :
    ((setup_children_fds PHASE_CHECK child_configuration 10 []).1.map
        fun r => r.cloexecSetOn) = [[], []] ∧
    ((setup_children_fds PHASE_CHECK child_configuration 10 []).1.getD 0
        ⟨"", 0, 0, [], []⟩).stdoutReadFd ∉
      ((setup_children_fds PHASE_CHECK child_configuration 10 []).1.getD 0
        ⟨"", 0, 0, [], []⟩).cloexecSetOn ∧
    ((setup_children_fds PHASE_CHECK child_configuration 10 []).1.getD 0
        ⟨"", 0, 0, [], []⟩).stdoutReadFd ∈
      ((setup_children_fds PHASE_CHECK child_configuration 10 []).1.getD 1
        ⟨"", 0, 0, [], []⟩).childFdsAfterExec ∧
    ((setup_children_fds PHASE_CHECK child_configuration 10 []).1.getD 0
        ⟨"", 0, 0, [], []⟩).stderrReadFd ∈
      ((setup_children_fds PHASE_CHECK child_configuration 10 []).1.getD 1
        ⟨"", 0, 0, [], []⟩).childFdsAfterExec := by
  refine ⟨by decide, by decide, by decide, by decide⟩

theorem eventsAre_nil (p : Event → Bool) : EventsAre p [] := by
  intro e he
  cases he

theorem eventsAre_cons {p : Event → Bool} {e : Event} {l : List Event}
    (he : p e = true) (h : EventsAre p l) : EventsAre p (e :: l) := by
  intro x hx
  rcases List.mem_cons.mp hx with hx | hx
  · subst hx; exact he
  · exact h x hx

theorem eventsAre_append {p : Event → Bool} {l1 l2 : List Event}
    (h1 : EventsAre p l1) (h2 : EventsAre p l2) : EventsAre p (l1 ++ l2) := by
  intro x hx
  rcases List.mem_append.mp hx with hx | hx
  · exact h1 x hx
  · exact h2 x hx

theorem eventsAre_kills {p : Event → Bool} {sig : ChildState → Nat}
    {q : ChildState → Bool} {l : List ChildState}
    (hk : ∀ pid sg, p (Event.kill pid sg) = true) :
    EventsAre p (kills sig q l) := by
  intro e he
  rcases List.mem_filterMap.mp he with ⟨c, _, hc⟩
  split at hc
  · cases hc
    exact hk _ _
  · cases hc

theorem eventsAre_teardown {p : Event → Bool} {s : SupState}
    (hlog : ∀ m, p (Event.log m) = true)
    (hk : ∀ pid sg, p (Event.kill pid sg) = true)
    (ha : ∀ n, p (Event.armAlarm n) = true) :
    EventsAre p (teardown s).2 := by
  unfold teardown
  split
  · exact eventsAre_nil p
  · exact eventsAre_cons (hlog _)
      (eventsAre_append (eventsAre_kills hk)
        (eventsAre_cons (ha _) (eventsAre_nil p)))

theorem eventsAre_brutal {p : Event → Bool} {s : SupState}
    (hk : ∀ pid sg, p (Event.kill pid sg) = true) :
    EventsAre p (brutal_teardown s) :=
  eventsAre_kills hk

theorem check_signals_soft {s : SupState}
    (hterm : s.termination_signal_received = true)
    (htd : ¬ s.teardown_in_progress = true) :
    (check_signals s).1.teardown_in_progress = true ∧
    Event.armAlarm SHUTDOWN_TIMEOUT ∈ (check_signals s).2.1 ∧
    ∀ c ∈ s.children, c.running = true →
      Event.kill c.pid c.config.termination_signal ∈ (check_signals s).2.1 := by
  by_cases h1 : s.sigusr1_received = true <;>
  by_cases h2 : s.sigusr2_received = true <;>
  by_cases ha : s.sigalrm_received = true <;>
  refine ⟨by simp [check_signals, teardown, hterm, htd, h1, h2, ha], by
    simp [check_signals, teardown, hterm, htd, h1, h2, ha], fun c hc hr => by
    simp only [check_signals, teardown, hterm, htd, h1, h2, ha, if_true, if_false,
      Bool.false_eq_true, List.append_assoc, List.cons_append, List.nil_append]
    exact List.mem_cons_of_mem _ (List.mem_cons_of_mem _ (List.mem_cons_of_mem _
      (List.mem_cons_of_mem _ (List.mem_append_left _ (mem_kills hc hr)))))⟩

theorem check_signals_hard {s : SupState}
    (hterm : s.termination_signal_received = true)
    (htd : s.teardown_in_progress = true) :
    (check_signals s).2.2 = some 1 ∧
    ∀ c ∈ s.children, c.running = true →
      Event.kill c.pid SIGKILL ∈ (check_signals s).2.1 :=
  ⟨by simp [check_signals, hterm, htd],
    fun c hc hr => by
      simp only [check_signals, hterm, htd, if_true]
      exact List.mem_append.mpr (Or.inr (mem_brutal hc hr))⟩

theorem check_signals_alrm {s : SupState} (h : s.sigalrm_received = true) :
    (check_signals s).2.2 = some 1 ∧
    ∀ c ∈ s.children, c.running = true →
      Event.kill c.pid SIGKILL ∈ (check_signals s).2.1 := by
  by_cases hterm : s.termination_signal_received = true
  · by_cases htd : s.teardown_in_progress = true
    · exact check_signals_hard hterm htd
    · by_cases h1 : s.sigusr1_received = true <;>
      by_cases h2 : s.sigusr2_received = true <;>
      exact ⟨by simp [check_signals, teardown, hterm, htd, h1, h2, h],
        fun c hc hr => by
          simp only [check_signals, teardown, hterm, htd, h1, h2, h, if_true, if_false,
            Bool.false_eq_true]
          exact List.mem_append.mpr (Or.inr (mem_brutal hc hr))⟩
  · by_cases h1 : s.sigusr1_received = true <;>
    by_cases h2 : s.sigusr2_received = true <;>
    exact ⟨by simp [check_signals, teardown, hterm, h1, h2, h],
      fun c hc hr => by
        simp only [check_signals, teardown, hterm, h1, h2, h, if_true, if_false,
          Bool.false_eq_true]
        exact List.mem_append.mpr (Or.inr (mem_brutal hc hr))⟩

theorem check_signals_clear_head {s : SupState}
    (hterm : s.termination_signal_received = true) :
    (check_signals s).2.1.head? = some (Event.clearFlag "termination") := by
  by_cases htd : s.teardown_in_progress = true <;>
  by_cases h1 : s.sigusr1_received = true <;>
  by_cases h2 : s.sigusr2_received = true <;>
  by_cases ha : s.sigalrm_received = true <;>
  simp [check_signals, teardown, hterm, htd, h1, h2, ha]

theorem check_signals_flags_cleared {s : SupState}
    (hnone : (check_signals s).2.2 = none) :
    (check_signals s).1.termination_signal_received = false ∧
    (check_signals s).1.sigusr1_received = false ∧
    (check_signals s).1.sigusr2_received = false ∧
    (check_signals s).1.sigalrm_received = false := by
  by_cases hterm : s.termination_signal_received = true <;>
  by_cases htd : s.teardown_in_progress = true <;>
  by_cases h1 : s.sigusr1_received = true <;>
  by_cases h2 : s.sigusr2_received = true <;>
  by_cases ha : s.sigalrm_received = true <;>
  (try simp [check_signals, teardown, hterm, htd, h1, h2, ha] at hnone) <;>
  simp [check_signals, teardown, hterm, htd, h1, h2, ha]

/-- C6 (amended): the byte action of `pump_buffer`'s sanitising loop: CR is
discarded, LF flushes, a byte below `0x20` or equal to `0x7F` becomes a
single space, a byte in `0x20..0x7E` is appended verbatim — and a byte in
`0x80..0xFF` is appended verbatim only when `char` is unsigned; with the
reference platform's signed `char` it compares below `' '` and becomes a
space. -/
theorem processBytes_byte_classification (signed : Bool) (buf : List Nat) (b : Nat)
    (hb : b < 256) :
    (b = 13 → processBytes signed buf [b] = (buf, [])) ∧
    (b = 10 → processBytes signed buf [b] = ([], [buf])) ∧
    (b ≠ 13 → b ≠ 10 → (b < 32 ∨ b = 127) →
      processBytes signed buf [b] = (buf ++ [32], [])) ∧
    (128 ≤ b → signed = true → processBytes signed buf [b] = (buf ++ [32], [])) ∧
    (128 ≤ b → signed = false → processBytes signed buf [b] = (buf ++ [b], [])) ∧
    (32 ≤ b → b ≤ 126 → processBytes signed buf [b] = (buf ++ [b], [])) := by
  refine ⟨?_, ?_, ?_, ?_, ?_, ?_⟩
  · intro h; subst h; simp [processBytes]
  · intro h; subst h; simp [processBytes]
  · intro h13 h10 hc
    have hcv : charVal signed b < 32 ∨ b = 127 := by
      unfold charVal
      rcases hc with h | h
      · left; split <;> omega
      · right; exact h
    simp [processBytes, h13, h10, hcv]
  · intro hge hs
    subst hs
    have h13 : ¬ b = 13 := by omega
    have h10 : ¬ b = 10 := by omega
    have hcv : charVal true b < 32 ∨ b = 127 := by
      left
      have hv : charVal true b = (b : Int) - 256 := by
        simp [charVal, hge]
      rw [hv]
      omega
    simp [processBytes, h13, h10, hcv]
  · intro hge hs
    subst hs
    have h13 : ¬ b = 13 := by omega
    have h10 : ¬ b = 10 := by omega
    have hcv : ¬ (charVal false b < 32 ∨ b = 127) := by
      have hv : charVal false b = (b : Int) := by
        simp [charVal]
      rw [hv]
      push_neg
      exact ⟨by omega, by omega⟩
    simp [processBytes, h13, h10, hcv]
  · intro hlo hhi
    have h13 : ¬ b = 13 := by omega
    have h10 : ¬ b = 10 := by omega
    have hcv : ¬ (charVal signed b < 32 ∨ b = 127) := by
      have hv : charVal signed b = (b : Int) := by
        simp only [charVal]
        rw [if_neg]
        rintro ⟨_, hge⟩
        omega
      rw [hv]
      push_neg
      exact ⟨by omega, by omega⟩
    simp [processBytes, h13, h10, hcv]

/-- C6 witness: byte `0x80` becomes a space under signed `char`, stays
verbatim under unsigned `char`, and `'A'` is appended verbatim. -/
theorem processBytes_byte_classification_witness :
    processBytes true [] [128] = ([] ++ [32], []) ∧
    processBytes false [] [128] = ([] ++ [128], []) ∧
    processBytes true [] [65] = ([] ++ [65], []) :=
  ⟨(processBytes_byte_classification true [] 128 (by decide)).2.2.2.1 (by decide) rfl,
   (processBytes_byte_classification false [] 128 (by decide)).2.2.2.2.1 (by decide) rfl,
   (processBytes_byte_classification true [] 65 (by decide)).2.2.2.2.2 (by decide) (by decide)⟩

/-- C10: whenever `check_signals` observes the SIGALRM flag it performs a
hard teardown unconditionally — the process exits with status 1 and every
running child is sent SIGKILL — with no condition on
`teardown_in_progress` or on the alarm ever having been armed by a soft
teardown. -/
theorem check_signals_sigalrm_always_hard (s : SupState)
    (h : s.sigalrm_received = true) :
    (check_signals s).2.2 = some 1 ∧
    ∀ c ∈ s.children, c.running = true →
      Event.kill c.pid SIGKILL ∈ (check_signals s).2.1 :=
  check_signals_alrm h

/-- C10 witness: a state that never started a soft teardown (flag unset)
with one running child: an externally delivered SIGALRM exits with status
1 and SIGKILLs the child. -/
theorem check_signals_sigalrm_always_hard_witness :
    (check_signals ⟨false, false, false, false, true,
        [runningChild ⟨"SLEEPER", false, false, SIGTERM, false⟩ 100 []]⟩).2.2 = some 1 ∧
    Event.kill 100 SIGKILL ∈ (check_signals ⟨false, false, false, false, true,
        [runningChild ⟨"SLEEPER", false, false, SIGTERM, false⟩ 100 []]⟩).2.1 := by
  have h := check_signals_sigalrm_always_hard
    ⟨false, false, false, false, true,
      [runningChild ⟨"SLEEPER", false, false, SIGTERM, false⟩ 100 []]⟩ rfl
  exact ⟨h.1, h.2 (runningChild ⟨"SLEEPER", false, false, SIGTERM, false⟩ 100 [])
    (by simp) rfl⟩

/-- C5: `check_signals` clears each pending flag before acting on it (the
first event of a pending termination is the clear, and no taken flag stays
set in the resulting state); a pending termination flag triggers a soft
teardown when `teardown_in_progress` is unset and a hard teardown (SIGKILL
to every running child, then exit 1) when it is set; a pending alarm flag
triggers a hard teardown. -/
theorem check_signals_clears_then_acts (s : SupState) :
    (s.termination_signal_received = true →
      (check_signals s).2.1.head? = some (Event.clearFlag "termination")) ∧
    ((check_signals s).2.2 = none →
      (check_signals s).1.termination_signal_received = false ∧
      (check_signals s).1.sigusr1_received = false ∧
      (check_signals s).1.sigusr2_received = false ∧
      (check_signals s).1.sigalrm_received = false) ∧
    (s.termination_signal_received = true → s.teardown_in_progress = false →
      (check_signals s).1.teardown_in_progress = true ∧
      Event.armAlarm SHUTDOWN_TIMEOUT ∈ (check_signals s).2.1 ∧
      ∀ c ∈ s.children, c.running = true →
        Event.kill c.pid c.config.termination_signal ∈ (check_signals s).2.1) ∧
    (s.termination_signal_received = true → s.teardown_in_progress = true →
      (check_signals s).2.2 = some 1 ∧
      ∀ c ∈ s.children, c.running = true →
        Event.kill c.pid SIGKILL ∈ (check_signals s).2.1) ∧
    (s.sigalrm_received = true →
      (check_signals s).2.2 = some 1 ∧
      ∀ c ∈ s.children, c.running = true →
        Event.kill c.pid SIGKILL ∈ (check_signals s).2.1) :=
  ⟨fun hterm => check_signals_clear_head hterm,
    fun hnone => check_signals_flags_cleared hnone,
    fun hterm htd => check_signals_soft hterm (by simp [htd]),
    fun hterm htd => check_signals_hard hterm htd,
    fun ha => check_signals_alrm ha⟩

/-- C5 witness: on a state with a pending termination, no teardown in
progress, and one running child, `check_signals`'s first event is the flag
clear, the teardown flag gets set, the alarm is armed, and the child
receives its configured SIGTERM. -/
theorem check_signals_clears_then_acts_witness :
    (check_signals sPendingTerm).2.1.head? = some (Event.clearFlag "termination") ∧
    (check_signals sPendingTerm).1.teardown_in_progress = true ∧
    Event.armAlarm SHUTDOWN_TIMEOUT ∈ (check_signals sPendingTerm).2.1 ∧
    Event.kill 100 SIGTERM ∈ (check_signals sPendingTerm).2.1 := by
  have h := check_signals_clears_then_acts sPendingTerm
  refine ⟨h.1 rfl, (h.2.2.1 rfl rfl).1, (h.2.2.1 rfl rfl).2.1, ?_⟩
  exact (h.2.2.1 rfl rfl).2.2
    (runningChild ⟨"SLEEPER", false, false, SIGTERM, false⟩ 100 [97, 98, 99])
    (by simp [sPendingTerm]) rfl

/-- C7 counterexample: with a termination request pending and a running
child whose pipe holds the unread bytes `"abc"` (no newline), one `pump`
iteration sends the teardown kill but emits no record at all: the pending
output is read into the line buffer, not flushed, before the kill is
dispatched. -/
theorem pump_pending_output_unflushed_before_kill :
    (sPendingTerm.children.map fun c => c.outPending) = [[97, 98, 99]] ∧
    Event.kill 100 SIGTERM ∈ (pump char_is_signed PHASE_NORMAL envNone sPendingTerm).2.1 ∧
    (pump char_is_signed PHASE_NORMAL envNone sPendingTerm).2.1.filter isRecordEvent
      = [] := by
  refine ⟨by decide, by decide, by decide⟩

theorem eventsAre_map {p : Event → Bool} {α : Type} {f : α → Event} {l : List α}
    (h : ∀ x, p (f x) = true) : EventsAre p (l.map f) := by
  intro e he
  rcases List.mem_map.mp he with ⟨x, _, rfl⟩
  exact h x

theorem ioEvents_handle_io_stream {signed : Bool} {name : String} {fd : Nat}
    {flavour : Int} {isOpen : Bool} {buf pending : List Nat} {wc : Bool} :
    EventsAre isIoEvent
      (handle_io_stream signed name fd flavour isOpen buf pending wc).2.2.2 := by
  simp only [handle_io_stream]
  split
  · split
    · exact eventsAre_append
        (eventsAre_cons rfl (eventsAre_map fun _ => rfl))
        (eventsAre_cons rfl (eventsAre_nil _))
    · exact eventsAre_cons rfl (eventsAre_map fun _ => rfl)
  · exact eventsAre_nil _

theorem ioEvents_handle_io_child {signed : Bool} {c : ChildState} :
    EventsAre isIoEvent (handle_io_child signed c).2 := by
  simp only [handle_io_child]
  split
  · exact eventsAre_append ioEvents_handle_io_stream ioEvents_handle_io_stream
  · exact eventsAre_nil _

theorem ioEvents_handle_io {signed : Bool} {s : SupState} :
    EventsAre isIoEvent (handle_io signed s).2 := by
  simp only [handle_io]
  apply eventsAre_append
  · split
    · exact eventsAre_cons rfl (eventsAre_nil _)
    · exact eventsAre_nil _
  · intro e he
    rcases List.mem_flatten.mp he with ⟨l, hl, hel⟩
    rcases List.mem_map.mp hl with ⟨pr, hpr, rfl⟩
    rcases List.mem_map.mp hpr with ⟨c, _, rfl⟩
    exact ioEvents_handle_io_child e hel

theorem sigActEvents_check_signals (s : SupState) :
    EventsAre isSigActEvent (check_signals s).2.1 := by
  by_cases hterm : s.termination_signal_received = true <;>
  by_cases htd : s.teardown_in_progress = true <;>
  by_cases h1 : s.sigusr1_received = true <;>
  by_cases h2 : s.sigusr2_received = true <;>
  by_cases ha : s.sigalrm_received = true
  all_goals
    simp only [check_signals, teardown, hterm, htd, h1, h2, ha, if_true, if_false,
      Bool.false_eq_true]
  all_goals
    repeat
      first
      | exact eventsAre_nil _
      | exact eventsAre_kills fun _ _ => rfl
      | exact eventsAre_brutal fun _ _ => rfl
      | apply eventsAre_cons rfl
      | apply eventsAre_append

theorem eventsAre_reap {p : Event → Bool} {pid : Int} {st : Nat} {l : List ChildState}
    (hr : ∀ n stt c, p (Event.reaped n stt c) = true) :
    EventsAre p (reap pid st l).2 := by
  induction l with
  | nil => exact eventsAre_nil p
  | cons c rest ih =>
    simp only [reap]
    split
    · exact eventsAre_cons (hr _ _ _) (eventsAre_nil p)
    · exact ih

theorem cftEvents (phase : Nat) (reaps : List (Int × Nat)) (s : SupState) :
    EventsAre (fun e => !isIoEvent e && !isSpawnEvent e)
      (check_for_terminations phase reaps s).2 := by
  induction reaps generalizing s with
  | nil => exact eventsAre_nil _
  | cons r rest ih =>
    simp only [check_for_terminations]
    apply eventsAre_append
    apply eventsAre_append
    · exact eventsAre_reap fun _ _ _ => rfl
    · split
      · exact eventsAre_teardown (fun _ => rfl) (fun _ _ => rfl) (fun _ => rfl)
      · exact eventsAre_nil _
    · exact ih _

/-- C7 (amended): one `pump` iteration is exactly the drain events, then
the signal-flag events, then the reaping events, in that order; the drain
part contains no kill, the later parts contain no drain and no emitted
record, and reap events occur only in the final part.  (Ready pipes are
read into the line buffers before teardown kills are dispatched, and any
record the drain emits precedes every kill; but output that does not
complete a line is only buffered, not flushed, before the kills — see the
counterexample.) -/
theorem pump_io_then_signals_then_reaps (signed : Bool) (phase : Nat) (env : EnvIter)
    (s : SupState) :
    ∃ eio esig eterm,
      (pump signed phase env s).2.1 = eio ++ esig ++ eterm ∧
      eio = (handle_io signed (deliver env s)).2 ∧
      (∀ p sg, Event.kill p sg ∉ eio) ∧
      (∀ n st c, Event.reaped n st c ∉ eio ++ esig) ∧
      (∀ n f, Event.drain n f ∉ esig ++ eterm) ∧
      (∀ fd n pl, Event.emitRecord fd n pl ∉ esig ++ eterm) := by
  have hio : EventsAre isIoEvent (handle_io signed (deliver env s)).2 := ioEvents_handle_io
  have hsig := sigActEvents_check_signals (handle_io signed (deliver env s)).1
  rcases hcs : check_signals (handle_io signed (deliver env s)).1 with ⟨s2, rest⟩
  rcases rest with ⟨e2, ex⟩
  rw [hcs] at hsig
  cases ex with
  | some c =>
    refine ⟨(handle_io signed (deliver env s)).2, e2, [], ?_, rfl, ?_, ?_, ?_, ?_⟩
    · simp only [pump, hcs, List.append_nil]
    · intro p sg hk
      exact Bool.false_ne_true (hio _ hk)
    · intro n st c hm
      rcases List.mem_append.mp hm with hm | hm
      · exact Bool.false_ne_true (hio _ hm)
      · exact Bool.false_ne_true (hsig _ hm)
    · intro n f hm
      rcases List.mem_append.mp hm with hm | hm
      · exact Bool.false_ne_true (hsig _ hm)
      · cases hm
    · intro fd n pl hm
      rcases List.mem_append.mp hm with hm | hm
      · exact Bool.false_ne_true (hsig _ hm)
      · cases hm
  | none =>
    have hterm := cftEvents phase env.reaps s2
    refine ⟨(handle_io signed (deliver env s)).2, e2,
      (check_for_terminations phase env.reaps s2).2, ?_, rfl, ?_, ?_, ?_, ?_⟩
    · simp only [pump, hcs]
    · intro p sg hk
      exact Bool.false_ne_true (hio _ hk)
    · intro n st c hm
      rcases List.mem_append.mp hm with hm | hm
      · exact Bool.false_ne_true (hio _ hm)
      · exact Bool.false_ne_true (hsig _ hm)
    · intro n f hm
      rcases List.mem_append.mp hm with hm | hm
      · exact Bool.false_ne_true (hsig _ hm)
      · have := hterm _ hm
        simp [isIoEvent] at this
    · intro fd n pl hm
      rcases List.mem_append.mp hm with hm | hm
      · exact Bool.false_ne_true (hsig _ hm)
      · have := hterm _ hm
        simp [isIoEvent] at this

/-- C9 (amended): `setup_children` never sets `FD_CLOEXEC` (there is no
`fcntl` call in it), and every pipe fd open in the parent before an
iteration of the spawn loop — in particular every earlier child's
parent-side read ends — is inherited, across `fork` and `execv`, by every
child spawned from then on; the child closes only its own two read ends.
Concretely, in the check phase CHECK2's post-exec descriptor set
`[10, 14, 17, 18, 21]` contains CHECK's read ends 10 and 14. -/
theorem setup_children_no_cloexec_inherits_siblings (phase : Nat)
    (cfgs : List ChildConfig) (f : Nat) (parent : List Nat)
    (hp : ∀ x ∈ parent, x < f) :
    (∀ r ∈ (setup_children_fds phase cfgs f parent).1, r.cloexecSetOn = []) ∧
    (∀ x ∈ parent, ∀ r ∈ (setup_children_fds phase cfgs f parent).1,
      x ∈ r.childFdsAfterExec) ∧
    ((setup_children_fds PHASE_CHECK child_configuration 10 []).1.map
        fun r => r.childFdsAfterExec) = [[11, 12, 15], [10, 14, 17, 18, 21]] := by
  refine ⟨?_, ?_, by decide⟩
  · induction cfgs generalizing f parent with
    | nil => intro r hr; cases hr
    | cons cfg rest ih =>
      intro r hr
      simp only [setup_children_fds] at hr
      split at hr
      · exact ih f parent hp r hr
      · rcases List.mem_cons.mp hr with hr | hr
        · subst hr; rfl
        · refine ih (f + 6) _ ?_ r hr
          intro x hx
          rcases List.mem_filter.mp hx with ⟨hx2, _⟩
          rcases List.mem_filter.mp hx2 with ⟨hx1, _⟩
          rcases List.mem_append.mp hx1 with hx0 | hx0
          · have := hp x hx0; omega
          · simp only [List.mem_cons, List.mem_nil_iff, or_false] at hx0
            rcases hx0 with rfl | rfl | rfl | rfl | rfl | rfl <;> omega
  · induction cfgs generalizing f parent with
    | nil => intro x _ r hr; cases hr
    | cons cfg rest ih =>
      intro x hx r hr
      have hxf : x < f := hp x hx
      simp only [setup_children_fds] at hr
      split at hr
      · exact ih f parent hp x hx r hr
      · have hx1 : x ∈ parent ++ [f, f + 1, f + 2, f + 3, f + 4, f + 5] :=
          List.mem_append.mpr (Or.inl hx)
        have hx2 : x ∈ (parent ++ [f, f + 1, f + 2, f + 3, f + 4, f + 5]).filter
            (fun y => y ≠ f + 3) :=
          List.mem_filter.mpr ⟨hx1, by simp; omega⟩
        rcases List.mem_cons.mp hr with hr | hr
        · subst hr
          exact List.mem_filter.mpr ⟨hx2, by simp; omega⟩
        · refine ih (f + 6) _ ?_ x (List.mem_filter.mpr ⟨hx2, by simp; omega⟩) r hr
          intro y hy
          rcases List.mem_filter.mp hy with ⟨hy2, _⟩
          rcases List.mem_filter.mp hy2 with ⟨hy1, _⟩
          rcases List.mem_append.mp hy1 with hy0 | hy0
          · have := hp y hy0; omega
          · simp only [List.mem_cons, List.mem_nil_iff, or_false] at hy0
            rcases hy0 with rfl | rfl | rfl | rfl | rfl | rfl <;> omega

/-- C9 witness: applying the amended theorem to the check phase of the
reference table starting from an empty parent descriptor set. -/
theorem setup_children_no_cloexec_inherits_siblings_witness :
    ((setup_children_fds PHASE_CHECK child_configuration 10 []).1.map
        fun r => r.childFdsAfterExec) = [[11, 12, 15], [10, 14, 17, 18, 21]] :=
  (setup_children_no_cloexec_inherits_siblings PHASE_CHECK child_configuration 10 []
    (fun x hx => absurd hx (List.not_mem_nil x))).2.2

theorem countAlarms_append (l1 l2 : List Event) :
    countAlarms (l1 ++ l2) = countAlarms l1 + countAlarms l2 :=
  List.countP_append _ _ _

theorem countAlarms_eq_zero_of {l : List Event}
    (h : ∀ e ∈ l, isAlarmEvent e = false) : countAlarms l = 0 := by
  refine List.countP_eq_zero.mpr ?_
  intro a ha hpa
  rw [h a ha] at hpa
  cases hpa

theorem countAlarms_kills (sig : ChildState → Nat) (p : ChildState → Bool)
    (l : List ChildState) : countAlarms (kills sig p l) = 0 := by
  refine countAlarms_eq_zero_of ?_
  intro e he
  have := kills_only_kill he
  cases e <;> first | rfl | cases this

theorem countAlarms_handle_io (signed : Bool) (s : SupState) :
    (handle_io signed s).1.teardown_in_progress = s.teardown_in_progress ∧
    countAlarms (handle_io signed s).2 = 0 := by
  constructor
  · simp [handle_io]
  · refine countAlarms_eq_zero_of ?_
    intro e he
    have := ioEvents_handle_io e he
    cases e <;> first | rfl | cases this

theorem countAlarms_teardown (s : SupState) :
    (s.teardown_in_progress = true → teardown s = (s, [])) ∧
    (teardown s).1.teardown_in_progress = true ∧
    (s.teardown_in_progress = false → countAlarms (teardown s).2 = 1) ∧
    (s.teardown_in_progress = true → countAlarms (teardown s).2 = 0) := by
  by_cases h : s.teardown_in_progress = true
  · refine ⟨fun _ => by simp [teardown, h], by simp [teardown, h], fun hf => ?_, fun _ => by
      simp [teardown, h, countAlarms]⟩
    rw [hf] at h
    cases h
  · refine ⟨fun ht => absurd ht h, by simp [teardown, h], fun _ => ?_, fun ht => absurd ht h⟩
    simp only [teardown, h, if_false, Bool.false_eq_true]
    rw [show (Event.log "Asking all processes to exit."
        :: kills (fun c => c.config.termination_signal) (fun c => c.running) s.children
        ++ [Event.armAlarm SHUTDOWN_TIMEOUT])
      = [Event.log "Asking all processes to exit."]
        ++ kills (fun c => c.config.termination_signal) (fun c => c.running) s.children
        ++ [Event.armAlarm SHUTDOWN_TIMEOUT] by simp]
    rw [countAlarms_append, countAlarms_append, countAlarms_kills]
    rfl

theorem countAlarms_check_signals (s : SupState) :
    (s.teardown_in_progress = true →
      (check_signals s).1.teardown_in_progress = true ∧
      countAlarms (check_signals s).2.1 = 0) ∧
    (s.teardown_in_progress = false →
      countAlarms (check_signals s).2.1 =
        (if (check_signals s).1.teardown_in_progress = true then 1 else 0)) := by
  by_cases hterm : s.termination_signal_received = true <;>
  by_cases htd : s.teardown_in_progress = true <;>
  by_cases h1 : s.sigusr1_received = true <;>
  by_cases h2 : s.sigusr2_received = true <;>
  by_cases ha : s.sigalrm_received = true
  all_goals
    constructor
  all_goals
    intro hf
  all_goals
    first
    | (rw [hf] at htd; cases htd; done)
    | (exact absurd hf htd)
    | simp [check_signals, teardown, hterm, htd, h1, h2, ha, countAlarms, isAlarmEvent,
        List.countP_append, List.countP_cons, brutal_teardown,
        show ∀ sig p l, List.countP isAlarmEvent (kills sig p l) = 0 from
          fun sig p l => countAlarms_kills sig p l]

theorem countAlarms_reap (pid : Int) (st : Nat) (l : List ChildState) :
    countAlarms (reap pid st l).2 = 0 := by
  have h2 : EventsAre (fun e => !isAlarmEvent e) (reap pid st l).2 :=
    eventsAre_reap fun _ _ _ => rfl
  refine countAlarms_eq_zero_of ?_
  intro e he
  have := h2 e he
  simpa using this

theorem alarmSpec_comp {s s1 s2 : SupState} {e1 e2 : List Event}
    (h1 : AlarmSpec s s1 e1) (h2 : AlarmSpec s1 s2 e2) :
    AlarmSpec s s2 (e1 ++ e2) := by
  constructor
  · intro hf
    rcases h1.1 hf with ⟨hm1, hc1⟩
    rcases h2.1 hm1 with ⟨hm2, hc2⟩
    exact ⟨hm2, by rw [countAlarms_append, hc1, hc2]⟩
  · intro hf
    rw [countAlarms_append]
    by_cases hmid : s1.teardown_in_progress = true
    · rcases h2.1 hmid with ⟨hm2, hc2⟩
      rw [h1.2 hf, hc2, hmid, hm2]
      simp
    · have hmid' : s1.teardown_in_progress = false := by
        cases hx : s1.teardown_in_progress
        · rfl
        · exact absurd hx hmid
      rw [h1.2 hf, hmid', h2.2 hmid']
      simp

theorem alarmSpec_unchanged {s s' : SupState} {evs : List Event}
    (hflag : s'.teardown_in_progress = s.teardown_in_progress)
    (hz : countAlarms evs = 0) : AlarmSpec s s' evs := by
  constructor
  · intro hf
    exact ⟨by rw [hflag, hf], hz⟩
  · intro hf
    rw [hz, hflag, hf]
    simp

theorem alarmSpec_refl (s : SupState) : AlarmSpec s s [] :=
  alarmSpec_unchanged rfl rfl

theorem alarmSpec_teardown (s : SupState) :
    AlarmSpec s (teardown s).1 (teardown s).2 := by
  have h := countAlarms_teardown s
  constructor
  · intro hf
    rw [h.1 hf]
    exact ⟨hf, rfl⟩
  · intro hf
    rw [h.2.2.1 hf, h.2.1]
    simp

theorem alarmSpec_check_signals (s : SupState) :
    AlarmSpec s (check_signals s).1 (check_signals s).2.1 :=
  ⟨(countAlarms_check_signals s).1, (countAlarms_check_signals s).2⟩

theorem alarmSpec_handle_io (signed : Bool) (s : SupState) :
    AlarmSpec s (handle_io signed s).1 (handle_io signed s).2 :=
  alarmSpec_unchanged (countAlarms_handle_io signed s).1 (countAlarms_handle_io signed s).2

theorem alarmSpec_cft (phase : Nat) (reaps : List (Int × Nat)) (s : SupState) :
    AlarmSpec s (check_for_terminations phase reaps s).1
      (check_for_terminations phase reaps s).2 := by
  induction reaps generalizing s with
  | nil => exact alarmSpec_refl s
  | cons r rest ih =>
    obtain ⟨pid, st⟩ := r
    simp only [check_for_terminations]
    have h1 : AlarmSpec s { s with children := (reap pid st s.children).1 }
        (reap pid st s.children).2 :=
      alarmSpec_unchanged rfl (countAlarms_reap pid st s.children)
    by_cases hcond : st ≠ 0 ∨ phase ≠ PHASE_CHECK
    · simp only [hcond, if_true]
      exact alarmSpec_comp (alarmSpec_comp h1 (alarmSpec_teardown _)) (ih _)
    · simp only [hcond, if_false]
      exact alarmSpec_comp (alarmSpec_comp h1 (alarmSpec_refl _)) (ih _)

theorem alarmSpec_applyOp (signed : Bool) (op : Op) (s : SupState) :
    AlarmSpec s (applyOp signed op s).1 (applyOp signed op s).2.1 := by
  cases op with
  | ioStep => exact alarmSpec_handle_io signed s
  | signalsStep => exact alarmSpec_check_signals s
  | termsStep phase reaps => exact alarmSpec_cft phase reaps s
  | teardownStep => exact alarmSpec_teardown s

theorem alarmSpec_runOps (signed : Bool) (ops : List Op) (s : SupState) :
    AlarmSpec s (runOps signed ops s).1 (runOps signed ops s).2.1 := by
  induction ops generalizing s with
  | nil => exact alarmSpec_refl s
  | cons op rest ih =>
    rcases happ : applyOp signed op s with ⟨s', e, ex⟩
    have hspec : AlarmSpec s s' e := by
      have := alarmSpec_applyOp signed op s
      rw [happ] at this
      exact this
    cases ex with
    | some c =>
      simp only [runOps, happ]
      exact hspec
    | none =>
      simp only [runOps, happ]
      exact alarmSpec_comp hspec (ih s')

/-- C1: `teardown_in_progress` is monotonic and `teardown` is idempotent:
calling `teardown` with the flag already set returns immediately with no
events (no kills re-sent, no alarm re-armed); across any sequence of the
event loop's operations the flag is never cleared and no alarm is armed
once it is set; from a clean state the soft-teardown body — which sends
every running child its configured termination signal and arms the
`SHUTDOWN_TIMEOUT` alarm — runs exactly once when the run ends with the
flag set and never otherwise, so the flag flips false→true at most once
and the kills and the alarm happen exactly once per run. -/
theorem teardown_monotonic_idempotent (signed : Bool) (s : SupState) (ops : List Op) :
    (s.teardown_in_progress = true → teardown s = (s, [])) ∧
    (s.teardown_in_progress = true →
      (runOps signed ops s).1.teardown_in_progress = true ∧
      countAlarms (runOps signed ops s).2.1 = 0) ∧
    (s.teardown_in_progress = false →
      countAlarms (runOps signed ops s).2.1 =
        (if (runOps signed ops s).1.teardown_in_progress = true then 1 else 0)) ∧
    (s.teardown_in_progress = false →
      Event.armAlarm SHUTDOWN_TIMEOUT ∈ (teardown s).2 ∧
      ∀ c ∈ s.children, c.running = true →
        Event.kill c.pid c.config.termination_signal ∈ (teardown s).2) := by
  refine ⟨(countAlarms_teardown s).1, (alarmSpec_runOps signed ops s).1,
    (alarmSpec_runOps signed ops s).2, ?_⟩
  intro hf
  constructor
  · simp [teardown, hf]
  · intro c hc hr
    simp only [teardown, hf, if_false, Bool.false_eq_true]
    exact List.mem_cons_of_mem _ (List.mem_append_left _ (mem_kills hc hr))

/-- C1 witness: from a clean state with one running child, running
`teardown` twice arms the alarm exactly once, the first call sends the
child its SIGTERM and arms the alarm, and the second call is a no-op. -/
theorem teardown_monotonic_idempotent_witness :
    countAlarms (runOps true [Op.teardownStep, Op.teardownStep] sPendingTerm).2.1 =
      (if (runOps true [Op.teardownStep, Op.teardownStep]
            sPendingTerm).1.teardown_in_progress = true then 1 else 0) ∧
    Event.armAlarm SHUTDOWN_TIMEOUT ∈ (teardown sPendingTerm).2 ∧
    Event.kill 100 SIGTERM ∈ (teardown sPendingTerm).2 := by
  have h := teardown_monotonic_idempotent true sPendingTerm
    [Op.teardownStep, Op.teardownStep]
  refine ⟨h.2.2.1 rfl, (h.2.2.2 rfl).1, ?_⟩
  exact (h.2.2.2 rfl).2
    (runningChild ⟨"SLEEPER", false, false, SIGTERM, false⟩ 100 [97, 98, 99])
    (by simp [sPendingTerm]) rfl

theorem check_signals_exit (s : SupState) :
    (check_signals s).2.2 = none ∨ (check_signals s).2.2 = some 1 := by
  by_cases hterm : s.termination_signal_received = true <;>
  by_cases htd : s.teardown_in_progress = true <;>
  by_cases h1 : s.sigusr1_received = true <;>
  by_cases h2 : s.sigusr2_received = true <;>
  by_cases ha : s.sigalrm_received = true
  all_goals
    simp [check_signals, teardown, hterm, htd, h1, h2, ha]

theorem pump_exit (signed : Bool) (phase : Nat) (env : EnvIter) (s : SupState) :
    (pump signed phase env s).2.2 = none ∨ (pump signed phase env s).2.2 = some 1 := by
  rcases hcs : check_signals (handle_io signed (deliver env s)).1 with ⟨s2, e2, ex⟩
  cases ex with
  | none =>
    left
    simp [pump, hcs]
  | some c =>
    right
    have h := check_signals_exit (handle_io signed (deliver env s)).1
    rw [hcs] at h
    rcases h with h | h
    · exact Option.noConfusion h
    · have hc : c = 1 := Option.some.inj h
      simp [pump, hcs, hc]

theorem pumpLoop_exit (signed : Bool) (phase : Nat) (envs : List EnvIter) (s : SupState)
    (c : Nat) (evs : List Event)
    (h : pumpLoop signed phase envs s = LoopOut.exited c evs) : c = 1 := by
  induction envs generalizing s c evs with
  | nil => cases h
  | cons env rest ih =>
    rcases hp : pump signed phase env s with ⟨s', rest2⟩
    rcases rest2 with ⟨e', ex⟩
    have hx := pump_exit signed phase env s
    rw [hp] at hx
    cases ex with
    | some c2 =>
      simp only [pumpLoop, hp] at h
      rcases hx with hx | hx
      · exact Option.noConfusion hx
      · have hcc : c = c2 := by
          cases h
          rfl
        rw [hcc]
        exact Option.some.inj hx
    | none =>
      simp only [pumpLoop, hp] at h
      split at h
      · rcases hrec : pumpLoop signed phase rest s' with ⟨c3, evs3⟩ | ⟨s3, evs3⟩ | ⟨s3, evs3⟩
        · rw [hrec] at h
          have hcc : c = c3 := by
            cases h
            rfl
          rw [hcc]
          exact ih s' c3 evs3 hrec
        · rw [hrec] at h
          cases h
        · rw [hrec] at h
          cases h
      · cases h

theorem prependEvents_exited {pre : List Event} {o : LoopOut} {c : Nat} {evs : List Event}
    (h : prependEvents pre o = LoopOut.exited c evs) :
    ∃ evs2, o = LoopOut.exited c evs2 := by
  cases o with
  | exited c2 evs2 =>
    simp only [prependEvents] at h
    cases h
    exact ⟨evs2, rfl⟩
  | finished s2 evs2 =>
    simp only [prependEvents] at h
    cases h
  | running s2 evs2 =>
    simp only [prependEvents] at h
    cases h

theorem sc_post_exited {o : LoopOut} {c : Nat} {evs : List Event}
    (h : sc_post o = LoopOut.exited c evs) : o = LoopOut.exited c evs := by
  cases o with
  | exited c2 evs2 => exact h
  | finished s2 evs2 =>
    simp only [sc_post] at h
    cases h
  | running s2 evs2 => exact h

theorem startup_check_exit (signed : Bool) (oracle : List (Option SpawnFail))
    (envs : List EnvIter) (s : SupState) (c : Nat) (evs : List Event)
    (h : startup_check signed oracle envs s = LoopOut.exited c evs) : c = 1 := by
  simp only [startup_check] at h
  split at h
  · rcases prependEvents_exited h with ⟨evs2, h2⟩
    exact pumpLoop_exit signed PHASE_CHECK envs _ c evs2 (sc_post_exited h2)
  · split at h
    · cases h
    · rcases prependEvents_exited h with ⟨evs2, h2⟩
      exact pumpLoop_exit signed PHASE_CHECK envs _ c evs2 (sc_post_exited h2)

/-- C8: every termination path of `main` exits with status 1 — any
command-line argument, a startup-check failure, a hard teardown during
either pump loop, and normal completion after all children exit — and no
run exits with status 0. -/
theorem main_exit_status_always_one (signed : Bool) (inp : RunInput) (code : Nat)
    (evs : List Event) (h : main signed inp = MainOut.exited code evs) : code = 1 := by
  unfold main at h
  split at h
  · cases h
    rfl
  · rcases hsc : startup_check signed inp.checkOracle inp.checkEnvs initialState
      with ⟨c2, evs2⟩ | ⟨s2, evs2⟩ | ⟨s2, evs2⟩
    · rw [hsc] at h
      simp only at h
      cases h
      exact startup_check_exit signed inp.checkOracle inp.checkEnvs initialState _ _ hsc
    · rw [hsc] at h
      simp only at h
      split at h
      · cases h
        rfl
      · rcases hl : pumpLoop signed PHASE_NORMAL inp.normalEnvs _
            with ⟨c3, evs3⟩ | ⟨s3, evs3⟩ | ⟨s3, evs3⟩
        · rw [hl] at h
          cases h
          exact pumpLoop_exit signed PHASE_NORMAL inp.normalEnvs _ _ _ hl
        · rw [hl] at h
          cases h
          rfl
        · rw [hl] at h
          cases h
    · rw [hsc] at h
      simp only at h
      cases h

/-- C8 witness: invoking the supervisor with a command-line argument exits
with status 1. -/
theorem main_exit_status_always_one_witness :
    main true ⟨2, [], [], [], []⟩
      = MainOut.exited 1 [Event.warn "no command line arguments accepted"] ∧ 1 = 1 :=
  ⟨rfl, main_exit_status_always_one true ⟨2, [], [], [], []⟩ 1
    [Event.warn "no command line arguments accepted"] rfl⟩

theorem reap_event_status {pid : Int} {st : Nat} {l : List ChildState} {e : Event}
    (he : e ∈ (reap pid st l).2) : ∃ n ck, e = Event.reaped n st ck := by
  induction l with
  | nil => cases he
  | cons c rest ih =>
    simp only [reap] at he
    split at he
    · have heq := List.mem_singleton.mp he
      exact ⟨c.config.name, c.config.is_startup_check, heq⟩
    · exact ih he

theorem cft_bad {phase : Nat} {reaps : List (Int × Nat)} {s : SupState} {n : String}
    {st' : Nat} {ck : Bool}
    (hm : Event.reaped n st' ck ∈ (check_for_terminations phase reaps s).2)
    (hst : st' ≠ 0) :
    (check_for_terminations phase reaps s).1.teardown_in_progress = true := by
  induction reaps generalizing s with
  | nil => cases hm
  | cons r rest ih =>
    obtain ⟨pid, st⟩ := r
    simp only [check_for_terminations] at hm ⊢
    by_cases hcond : st ≠ 0 ∨ phase ≠ PHASE_CHECK
    · simp only [hcond, if_true] at hm ⊢
      exact ((alarmSpec_cft phase rest _).1 (countAlarms_teardown _).2.1).1
    · simp only [hcond, if_false] at hm ⊢
      rcases List.mem_append.mp hm with hm1 | hm2
      · rcases List.mem_append.mp hm1 with hma | hmb
        · rcases reap_event_status hma with ⟨n2, ck2, heq⟩
          injection heq with _ h2 _
          rw [h2] at hst
          exact absurd (Or.inl hst) hcond
        · cases hmb
      · exact ih hm2

theorem pump_flag_mono {signed : Bool} {phase : Nat} {env : EnvIter} {s : SupState}
    (h : s.teardown_in_progress = true) :
    (pump signed phase env s).1.teardown_in_progress = true := by
  have hd : (deliver env s).teardown_in_progress = true := h
  have h1 := (alarmSpec_handle_io signed (deliver env s)).1 hd
  have h2 := (alarmSpec_check_signals (handle_io signed (deliver env s)).1).1 h1.1
  rcases hcs : check_signals (handle_io signed (deliver env s)).1 with ⟨s2, e2, ex⟩
  rw [hcs] at h2
  cases ex with
  | some c =>
    simp only [pump, hcs]
    exact h2.1
  | none =>
    simp only [pump, hcs]
    exact ((alarmSpec_cft phase env.reaps s2).1 h2.1).1

theorem pump_bad {signed : Bool} {phase : Nat} {env : EnvIter} {s : SupState}
    {n : String} {st' : Nat} {ck : Bool}
    (hm : Event.reaped n st' ck ∈ (pump signed phase env s).2.1) (hst : st' ≠ 0)
    (hnone : (pump signed phase env s).2.2 = none) :
    (pump signed phase env s).1.teardown_in_progress = true := by
  have hio : EventsAre isIoEvent (handle_io signed (deliver env s)).2 := ioEvents_handle_io
  have hsig := sigActEvents_check_signals (handle_io signed (deliver env s)).1
  rcases hcs : check_signals (handle_io signed (deliver env s)).1 with ⟨s2, e2, ex⟩
  rw [hcs] at hsig
  cases ex with
  | some c =>
    rw [pump] at hnone
    simp only [hcs] at hnone
    cases hnone
  | none =>
    simp only [pump, hcs] at hm ⊢
    rcases List.mem_append.mp hm with hm1 | hm2
    · rcases List.mem_append.mp hm1 with hma | hmb
      · exact absurd (hio _ hma) Bool.false_ne_true
      · exact absurd (hsig _ hmb) Bool.false_ne_true
    · exact cft_bad hm2 hst

theorem pumpLoop_flag_mono {signed : Bool} {phase : Nat} {envs : List EnvIter}
    {s s2 : SupState} {evs : List Event} (hf : s.teardown_in_progress = true)
    (h : pumpLoop signed phase envs s = LoopOut.finished s2 evs) :
    s2.teardown_in_progress = true := by
  induction envs generalizing s evs with
  | nil => cases h
  | cons env rest ih =>
    rcases hp : pump signed phase env s with ⟨s', e', ex⟩
    cases ex with
    | some c =>
      simp only [pumpLoop, hp] at h
      exact LoopOut.noConfusion h
    | none =>
      have hmono : s'.teardown_in_progress = true := by
        have h2 := @pump_flag_mono signed phase env s hf
        rw [hp] at h2
        exact h2
      simp only [pumpLoop, hp] at h
      split at h
      · rcases hrec : pumpLoop signed phase rest s' with ⟨c3, evs3⟩ | ⟨s3, evs3⟩ | ⟨s3, evs3⟩
        · rw [hrec] at h
          exact LoopOut.noConfusion h
        · rw [hrec] at h
          cases h
          exact ih hmono hrec
        · rw [hrec] at h
          exact LoopOut.noConfusion h
      · cases h
        exact hmono

theorem pumpLoop_bad {signed : Bool} {phase : Nat} {envs : List EnvIter}
    {s s2 : SupState} {evs : List Event} {n : String} {st' : Nat} {ck : Bool}
    (h : pumpLoop signed phase envs s = LoopOut.finished s2 evs)
    (hm : Event.reaped n st' ck ∈ evs) (hst : st' ≠ 0) :
    s2.teardown_in_progress = true := by
  induction envs generalizing s evs with
  | nil => cases h
  | cons env rest ih =>
    rcases hp : pump signed phase env s with ⟨s', e', ex⟩
    cases ex with
    | some c =>
      simp only [pumpLoop, hp] at h
      exact LoopOut.noConfusion h
    | none =>
      simp only [pumpLoop, hp] at h
      split at h
      · rcases hrec : pumpLoop signed phase rest s' with ⟨c3, evs3⟩ | ⟨s3, evs3⟩ | ⟨s3, evs3⟩
        · rw [hrec] at h
          exact LoopOut.noConfusion h
        · rw [hrec] at h
          cases h
          rcases List.mem_append.mp hm with hma | hmb
          · have hflag : s'.teardown_in_progress = true := by
              have h2 := @pump_bad signed phase env s n st' ck
                (by rw [hp]; exact hma) hst (by rw [hp])
              rw [hp] at h2
              exact h2
            exact pumpLoop_flag_mono hflag hrec
          · exact ih hrec hmb
        · rw [hrec] at h
          exact LoopOut.noConfusion h
      · cases h
        have h2 := @pump_bad signed phase env s n st' ck
          (by rw [hp]; exact hm) hst (by rw [hp])
        rw [hp] at h2
        exact h2

theorem noSpawn_pump (signed : Bool) (phase : Nat) (env : EnvIter) (s : SupState) :
    EventsAre (fun e => !isSpawnEvent e) (pump signed phase env s).2.1 := by
  have hio : EventsAre isIoEvent (handle_io signed (deliver env s)).2 := ioEvents_handle_io
  have hsig := sigActEvents_check_signals (handle_io signed (deliver env s)).1
  rcases hcs : check_signals (handle_io signed (deliver env s)).1 with ⟨s2, e2, ex⟩
  rw [hcs] at hsig
  have hioS : EventsAre (fun e => !isSpawnEvent e) (handle_io signed (deliver env s)).2 := by
    intro e he
    have h2 := hio e he
    cases e <;> first | rfl | cases h2
  have hsigS : EventsAre (fun e => !isSpawnEvent e) e2 := by
    intro e he
    have h2 := hsig e he
    cases e <;> first | rfl | cases h2
  cases ex with
  | some c =>
    simp only [pump, hcs]
    exact eventsAre_append hioS hsigS
  | none =>
    simp only [pump, hcs]
    refine eventsAre_append (eventsAre_append hioS hsigS) ?_
    intro e he
    have h2 := cftEvents phase env.reaps s2 e he
    exact (Bool.and_eq_true _ _ |>.mp h2).2

theorem noSpawn_pumpLoop {signed : Bool} {phase : Nat} {envs : List EnvIter}
    {s s2 : SupState} {evs : List Event}
    (h : pumpLoop signed phase envs s = LoopOut.finished s2 evs) :
    EventsAre (fun e => !isSpawnEvent e) evs := by
  induction envs generalizing s evs with
  | nil => cases h
  | cons env rest ih =>
    rcases hp : pump signed phase env s with ⟨s', e', ex⟩
    have hpS : EventsAre (fun e => !isSpawnEvent e) e' := by
      have h2 := noSpawn_pump signed phase env s
      rw [hp] at h2
      exact h2
    cases ex with
    | some c =>
      simp only [pumpLoop, hp] at h
      exact LoopOut.noConfusion h
    | none =>
      simp only [pumpLoop, hp] at h
      split at h
      · rcases hrec : pumpLoop signed phase rest s' with ⟨c3, evs3⟩ | ⟨s3, evs3⟩ | ⟨s3, evs3⟩
        · rw [hrec] at h
          exact LoopOut.noConfusion h
        · rw [hrec] at h
          cases h
          exact eventsAre_append hpS (ih hrec)
        · rw [hrec] at h
          exact LoopOut.noConfusion h
      · cases h
        exact hpS

theorem setup_events_no_reaped (phase : Nat) (oracle : List (Option SpawnFail)) :
    ∀ (i : Nat) (acc : Int) (l : List ChildState),
      EventsAre (fun e => !isReapedEvent e)
        (setup_children_go phase oracle i acc l).2.1 := by
  intro i acc l
  induction l generalizing i acc with
  | nil =>
    intro e he
    cases he
  | cons c rest ih =>
    intro e he
    simp only [setup_children_go] at he
    split at he
    · exact ih _ _ e he
    · split at he
      · have heq := List.mem_singleton.mp he
        subst heq
        rfl
      · have heq := List.mem_singleton.mp he
        subst heq
        rfl
      · have heq := List.mem_singleton.mp he
        subst heq
        rfl
      · have heq := List.mem_singleton.mp he
        subst heq
        rfl
      · rcases List.mem_cons.mp he with heq | he2
        · subst heq
          rfl
        · exact ih _ _ e he2

theorem setup_check_no_normal_spawn (oracle : List (Option SpawnFail)) :
    ∀ (i : Nat) (acc : Int) (l : List ChildState) (m : String),
      Event.spawn m false ∉ (setup_children_go PHASE_CHECK oracle i acc l).2.1 := by
  intro i acc l
  induction l generalizing i acc with
  | nil =>
    intro m hm
    cases hm
  | cons c rest ih =>
    intro m hm
    simp only [setup_children_go] at hm
    split at hm
    · exact ih _ _ m hm
    · next hskip =>
      have hck : c.config.is_startup_check = true := by
        simp [phase_skips, PHASE_CHECK, PHASE_NORMAL] at hskip
        exact hskip
      split at hm
      · exact Event.noConfusion (List.mem_singleton.mp hm)
      · exact Event.noConfusion (List.mem_singleton.mp hm)
      · exact Event.noConfusion (List.mem_singleton.mp hm)
      · exact Event.noConfusion (List.mem_singleton.mp hm)
      · rcases List.mem_cons.mp hm with heq | hm2
        · rw [hck] at heq
          injection heq with _ hfl
          cases hfl
        · exact ih _ _ m hm2

theorem prependEvents_finished {pre : List Event} {o : LoopOut} {s2 : SupState}
    {evs : List Event} (h : prependEvents pre o = LoopOut.finished s2 evs) :
    ∃ evs2, o = LoopOut.finished s2 evs2 ∧ evs = pre ++ evs2 := by
  cases o with
  | exited c2 evs2 =>
    simp only [prependEvents] at h
    exact LoopOut.noConfusion h
  | finished s3 evs2 =>
    simp only [prependEvents] at h
    cases h
    exact ⟨evs2, rfl, rfl⟩
  | running s3 evs2 =>
    simp only [prependEvents] at h
    exact LoopOut.noConfusion h

theorem sc_post_finished {o : LoopOut} {s2 : SupState} {evs : List Event}
    (h : sc_post o = LoopOut.finished s2 evs) :
    ∃ evs2, o = LoopOut.finished s2 evs2 ∧
      evs = evs2 ++ (if s2.teardown_in_progress then []
                     else [Event.log "All startup checks have passed."]) := by
  cases o with
  | exited c2 evs2 =>
    simp only [sc_post] at h
    exact LoopOut.noConfusion h
  | finished s3 evs2 =>
    simp only [sc_post] at h
    cases h
    exact ⟨evs2, rfl, rfl⟩
  | running s3 evs2 =>
    simp only [sc_post] at h
    exact LoopOut.noConfusion h

theorem startup_check_finished {signed : Bool} {oracle : List (Option SpawnFail)}
    {envs : List EnvIter} {s s' : SupState} {cevs : List Event}
    (h : startup_check signed oracle envs s = LoopOut.finished s' cevs) :
    ((∃ n st ck, Event.reaped n st ck ∈ cevs ∧ st ≠ 0) →
      s'.teardown_in_progress = true) ∧
    (∀ m, Event.spawn m false ∉ cevs) := by
  have hifl : ∀ (e : Event) (b : Bool),
      e ∈ (if b = true then [] else [Event.log "All startup checks have passed."]) →
      e = Event.log "All startup checks have passed." := by
    intro e b hm
    cases b
    · simp only [Bool.false_eq_true, if_false] at hm
      exact List.mem_singleton.mp hm
    · simp only [if_true] at hm
      cases hm
  simp only [startup_check] at h
  split at h
  · rcases prependEvents_finished h with ⟨evs2, h2, rfl⟩
    rcases sc_post_finished h2 with ⟨evs3, h3, rfl⟩
    constructor
    · intro _
      exact pumpLoop_flag_mono (countAlarms_teardown _).2.1 h3
    · intro m hm
      rcases List.mem_append.mp hm with hm1 | hm2
      · rcases List.mem_append.mp hm1 with hma | hmb
        · rcases List.mem_append.mp hma with hmx | hmy
          · exact setup_check_no_normal_spawn oracle 0 0 s.children m hmx
          · exact Event.noConfusion (List.mem_singleton.mp hmy)
        · have h4 := eventsAre_teardown (p := fun e => !isSpawnEvent e)
            (fun _ => rfl) (fun _ _ => rfl) (fun _ => rfl) _ hmb
          cases h4
      · rcases List.mem_append.mp hm2 with hma | hmb
        · have h4 := noSpawn_pumpLoop h3 _ hma
          cases h4
        · exact Event.noConfusion (hifl _ _ hmb)
  · split at h
    · cases h
      constructor
      · rintro ⟨n, st, ck, hm, hst⟩
        have h4 := setup_events_no_reaped PHASE_CHECK oracle 0 0 s.children _ hm
        cases h4
      · intro m hm
        exact setup_check_no_normal_spawn oracle 0 0 s.children m hm
    · rcases prependEvents_finished h with ⟨evs2, h2, rfl⟩
      rcases sc_post_finished h2 with ⟨evs3, h3, rfl⟩
      constructor
      · rintro ⟨n, st, ck, hm, hst⟩
        rcases List.mem_append.mp hm with hm1 | hm2
        · have h4 := setup_events_no_reaped PHASE_CHECK oracle 0 0 s.children _ hm1
          cases h4
        · rcases List.mem_append.mp hm2 with hmx | hmy
          · exact pumpLoop_bad h3 hmx hst
          · exact Event.noConfusion (hifl _ _ hmy)
      · intro m hm
        rcases List.mem_append.mp hm with hm1 | hm2
        · exact setup_check_no_normal_spawn oracle 0 0 s.children m hm1
        · rcases List.mem_append.mp hm2 with hmx | hmy
          · have h4 := noSpawn_pumpLoop h3 _ hmx
            cases h4
          · exact Event.noConfusion (hifl _ _ hmy)

/-- C2: if any startup check exits with nonzero status during the check
phase, `teardown_in_progress` is set by the end of the check phase, `main`
exits with status 1 right after logging the startup-check failure, and no
normal-phase child is ever spawned in the whole run (the run's event trace
is the check phase's trace plus the failure log, and contains no spawn of
a non-check child). -/
theorem startup_check_failure_gates_normal_phase (signed : Bool) (inp : RunInput)
    (s' : SupState) (cevs : List Event) (n : String) (st : Nat)
    (hargc : inp.argc ≤ 1)
    (hsc : startup_check signed inp.checkOracle inp.checkEnvs initialState
      = LoopOut.finished s' cevs)
    (hbad : Event.reaped n st true ∈ cevs) (hst : st ≠ 0) :
    s'.teardown_in_progress = true ∧
    main signed inp = MainOut.exited 1
      (cevs ++ [Event.log "Startup check failed, shutting down."]) ∧
    ∀ m, Event.spawn m false ∉
      cevs ++ [Event.log "Startup check failed, shutting down."] := by
  have hfin := startup_check_finished hsc
  have hflag : s'.teardown_in_progress = true := hfin.1 ⟨n, st, true, hbad, hst⟩
  have hargc2 : ¬ inp.argc > 1 := by omega
  refine ⟨hflag, ?_, ?_⟩
  · simp [main, hargc2, hsc, hflag]
  · intro m hm
    rcases List.mem_append.mp hm with hm1 | hm2
    · exact hfin.2 m hm1
    · exact Event.noConfusion (List.mem_singleton.mp hm2)

/-- C2 witness: the run whose check CHECK exits with status 1: the check
phase ends torn down and `main` exits 1 with the failure log, having never
spawned SLEEPER. -/
theorem startup_check_failure_gates_normal_phase_witness :
    main true ⟨1, [], checkFailEnvs, [], []⟩ = MainOut.exited 1
      (evsAfterFailedCheck ++ [Event.log "Startup check failed, shutting down."]) :=
  (startup_check_failure_gates_normal_phase true ⟨1, [], checkFailEnvs, [], []⟩
    sAfterFailedCheck evsAfterFailedCheck "CHECK" 1 (by decide) (by decide)
    (by decide) (by decide)).2.1

end SimpleSupervisor
